import Mathlib

/-
Verification of the step-metric logging callbacks of the tnt repository.

Embedded components:
* TimeWaitForBatchLogger (src/torchtnt/framework/callbacks/time_wait_for_batch_logger.py)
* ThroughputLogger (implementation absent from src; only its tests are present, so it
  is modelled from the specification, consistent with the expectations recorded in
  src/tests/framework/callbacks/test_throughput_logger.py)

Modelling conventions:
* Python floats are embedded as rationals; Python ints as integers.
* A recorded_durations mapping is an association list from category name to the
  ordered sample list, with dict.get as association-list lookup.
* A write on the metric sink is a SinkCall value; a method returning the list of
  sink calls it performed embeds a method whose only side effect is those calls.
* The rank_zero_fn decorator is embedded by passing the process rank explicitly.
* none_throws is embedded with Option: a hook returns none exactly when the
  Python code would raise through none_throws.
-/

namespace TNT

/-- recorded_durations of a timer: mapping from a duration-category name to the
ordered sequence of numeric samples, embedded as an association list. -/
abbrev Durations := List (String × List ℚ)

/-- Python dict.get on a recorded_durations mapping: the sample list stored under
the key, or none when the key is absent. -/
def Durations.get (d : Durations) (k : String) : Option (List ℚ) :=
  (d.find? (fun p => p.1 == k)).map Prod.snd

/-- The two sink shapes accepted by TimeWaitForBatchLogger: a tensorboard
SummaryWriter or a generic MetricLogger. -/
inductive Sink
  | summaryWriter
  | metricLogger
deriving DecidableEq, Repr

/-- Which sink method a write went through. -/
inductive SinkMethod
  | add_scalar
  | log
deriving DecidableEq, Repr

/-- One observed write on the metric sink: method(name, value, step). -/
structure SinkCall where
  method : SinkMethod
  name : String
  value : ℚ
  step : ℤ
deriving DecidableEq, Repr

/-- The state of a constructed TimeWaitForBatchLogger. -/
structure TimeWaitForBatchLogger where
  _logger : Sink
  _log_every_n_steps : ℤ
deriving DecidableEq, Repr

/-- TimeWaitForBatchLogger.__init__: stores the logger, then raises ValueError when
log_every_n_steps is below 1.  The constructor performs no sink writes, hence the
empty call list on success. -/
def TimeWaitForBatchLogger.init (logger : Sink) (log_every_n_steps : ℤ) :
    Except String (TimeWaitForBatchLogger × List SinkCall) :=
  if log_every_n_steps < 1 then
    Except.error ("log_every_n_steps must be at least 1, got " ++ toString log_every_n_steps)
  else
    Except.ok (⟨logger, log_every_n_steps⟩, [])

/-- TimeWaitForBatchLogger._log_step_metrics, including its rank_zero_fn wrapper:
on a non-zero rank the body is skipped.  The timer argument is the
recorded_durations of the iteration timer; the pair returned is the durations
after the call (the body only reads them) together with the sink calls made. -/
def TimeWaitForBatchLogger._log_step_metrics (self : TimeWaitForBatchLogger)
    (rank : ℤ) (timer : Durations) (label : String) (step : ℤ) :
    Durations × List SinkCall :=
  if rank ≠ 0 then (timer, [])
  else if step % self._log_every_n_steps ≠ 0 then (timer, [])
  else
    match timer.get "data_wait_time" with
    | none => (timer, [])
    | some [] => (timer, [])
    | some (x :: xs) =>
      match self._logger with
      | Sink.summaryWriter =>
        (timer, [⟨SinkMethod.add_scalar, label, (x :: xs).getLast (by simp), step⟩])
      | Sink.metricLogger =>
        (timer, [⟨SinkMethod.log, label, (x :: xs).getLast (by simp), step⟩])

/-- Phase state as read by the callbacks: the recorded_durations of its
iteration_timer (the only part of the TimerProtocol the callbacks touch). -/
structure PhaseState where
  iteration_timer : Durations
deriving DecidableEq, Repr

/-- The execution State: up to three phase states, each optional. -/
structure State where
  train_state : Option PhaseState
  eval_state : Option PhaseState
  predict_state : Option PhaseState
deriving DecidableEq, Repr

/-- A progress counter, as exposed by a unit. -/
structure Progress where
  num_steps_completed : ℤ
deriving DecidableEq, Repr

/-- The unit passed to the hooks, exposing the per-phase progress counters. -/
structure TUnit where
  train_progress : Progress
  eval_progress : Progress
  predict_progress : Progress
deriving DecidableEq, Repr

/-- TimeWaitForBatchLogger.on_train_step_end.  The result is none exactly when
none_throws(state.train_state) raises; otherwise the durations after the call
and the sink calls made. -/
def TimeWaitForBatchLogger.on_train_step_end (self : TimeWaitForBatchLogger)
    (rank : ℤ) (state : State) (unit : TUnit) :
    Option (Durations × List SinkCall) :=
  state.train_state.map fun ps =>
    self._log_step_metrics rank ps.iteration_timer "Time Wait For Batch (Train)"
      unit.train_progress.num_steps_completed

/-- TimeWaitForBatchLogger.on_eval_step_end. -/
def TimeWaitForBatchLogger.on_eval_step_end (self : TimeWaitForBatchLogger)
    (rank : ℤ) (state : State) (unit : TUnit) :
    Option (Durations × List SinkCall) :=
  state.eval_state.map fun ps =>
    self._log_step_metrics rank ps.iteration_timer "Time Wait For Batch (Eval)"
      unit.eval_progress.num_steps_completed

/-- TimeWaitForBatchLogger.on_predict_step_end. -/
def TimeWaitForBatchLogger.on_predict_step_end (self : TimeWaitForBatchLogger)
    (rank : ℤ) (state : State) (unit : TUnit) :
    Option (Durations × List SinkCall) :=
  state.predict_state.map fun ps =>
    self._log_step_metrics rank ps.iteration_timer "Time Wait For Batch (Predict)"
      unit.predict_progress.num_steps_completed

/-- The three phases of the framework. -/
inductive Phase
  | train
  | eval
  | predict
deriving DecidableEq, Repr

/-- The phase state of the execution State for a given phase. -/
def State.phase_state (s : State) : Phase → Option PhaseState
  | Phase.train => s.train_state
  | Phase.eval => s.eval_state
  | Phase.predict => s.predict_state

/-- The completed-step count of the unit for a given phase. -/
def TUnit.steps (u : TUnit) : Phase → ℤ
  | Phase.train => u.train_progress.num_steps_completed
  | Phase.eval => u.eval_progress.num_steps_completed
  | Phase.predict => u.predict_progress.num_steps_completed

/-- The fixed per-phase label used by TimeWaitForBatchLogger. -/
def Phase.twfbLabel : Phase → String
  | Phase.train => "Time Wait For Batch (Train)"
  | Phase.eval => "Time Wait For Batch (Eval)"
  | Phase.predict => "Time Wait For Batch (Predict)"

/-- Dispatcher over the three step-end hooks of TimeWaitForBatchLogger, used to
state properties uniformly; it merely selects the hook matching the phase. -/
def TimeWaitForBatchLogger.on_step_end (self : TimeWaitForBatchLogger)
    (rank : ℤ) (phase : Phase) (state : State) (unit : TUnit) :
    Option (Durations × List SinkCall) :=
  match phase with
  | Phase.train => self.on_train_step_end rank state unit
  | Phase.eval => self.on_eval_step_end rank state unit
  | Phase.predict => self.on_predict_step_end rank state unit

/-- The phase label used in emitted throughput metric names. -/
def Phase.label : Phase → String
  | Phase.train => "Train"
  | Phase.eval => "Eval"
  | Phase.predict => "Predict"

/-- The per-phase iteration-time duration category name. -/
def Phase.iterationTimeKey : Phase → String
  | Phase.train => "train_iteration_time"
  | Phase.eval => "eval_iteration_time"
  | Phase.predict => "predict_iteration_time"

/-- Modelled from the spec: the state of a constructed ThroughputLogger.  The
implementation file of ThroughputLogger is absent from src (only its tests are
present); per the spec it holds a Throughput Specification (a mapping from unit
name to count per batch, embedded as an association list in insertion order) and
a Logging Cadence.  The metric sink is external and emissions are returned as
SinkCall lists. -/
structure ThroughputLogger where
  throughput_per_batch : List (String × ℤ)
  log_every_n_steps : ℤ
deriving DecidableEq, Repr

/-- Modelled from the spec: ThroughputLogger construction (implementation absent
from src).  Per spec section 4.1 it fails with an input-validation error when the
specification is empty, when some specification value is below 1 (naming the
offending key and value), or when the cadence is below 1; the message texts are
those asserted by ThroughputLoggerTest.test_input_validation. -/
def ThroughputLogger.init (throughput_per_batch : List (String × ℤ))
    (log_every_n_steps : ℤ) : Except String ThroughputLogger :=
  if throughput_per_batch = [] then
    Except.error "throughput_per_batch cannot be empty"
  else
    match throughput_per_batch.find? (fun p => decide (p.2 < 1)) with
    | some p =>
      Except.error ("throughput_per_batch item " ++ p.1 ++
        " must be at least 1, got " ++ toString p.2)
    | none =>
      if log_every_n_steps < 1 then
        Except.error ("log_every_n_steps must be at least 1, got " ++
          toString log_every_n_steps)
      else
        Except.ok ⟨throughput_per_batch, log_every_n_steps⟩

/-- Modelled from the spec: the total_time of section 4.1 step 4, for a phase
state.  At a step-end call site it is data_wait_time[-2] + iteration_time[-1];
at a step-start call site it is data_wait_time[-1] + iteration_time[-1].
Negative Python indexing on the guarded non-empty lists is embedded with getD
(the defaults are unreachable under the length guards of the caller). -/
def ThroughputLogger.totalTime (ps : PhaseState) (phase : Phase)
    (is_step_end_hook : Bool) : ℚ :=
  let data_wait_time := (ps.iteration_timer.get "data_wait_time").getD []
  let iteration_time := (ps.iteration_timer.get phase.iterationTimeKey).getD []
  (if is_step_end_hook then data_wait_time.getD (data_wait_time.length - 2) 0
   else data_wait_time.getD (data_wait_time.length - 1) 0) +
    iteration_time.getD (iteration_time.length - 1) 0

/-- Modelled from the spec: ThroughputLogger._maybe_log_for_step (implementation
absent from src), per spec section 4.1 steps 1 to 6: skip when the step being
logged for is not divisible by the cadence; read the duration sequences of the
active phase; skip when the iteration-time sequence is empty or the
data-wait-time sequence has fewer than 2 samples; skip when total_time is not
positive; otherwise emit one metric per specification entry, named
"{Phase}: {unit_name} per second (step granularity)", with value
count_per_batch / total_time, tagged with the step being logged for. -/
def ThroughputLogger._maybe_log_for_step (self : ThroughputLogger) (phase : Phase)
    (state : State) (step_logging_for : ℤ) (is_step_end_hook : Bool) :
    List SinkCall :=
  if step_logging_for % self.log_every_n_steps ≠ 0 then []
  else
    match state.phase_state phase with
    | none => []
    | some ps =>
      let iteration_time := (ps.iteration_timer.get phase.iterationTimeKey).getD []
      let data_wait_time := (ps.iteration_timer.get "data_wait_time").getD []
      if iteration_time = [] then []
      else if data_wait_time.length < 2 then []
      else
        let total_time := ThroughputLogger.totalTime ps phase is_step_end_hook
        if total_time ≤ 0 then []
        else
          self.throughput_per_batch.map fun p =>
            ⟨SinkMethod.log,
             phase.label ++ ": " ++ p.1 ++ " per second (step granularity)",
             (p.2 : ℚ) / total_time, step_logging_for⟩

/-- The sink method a given sink shape dispatches to: add_scalar on a
SummaryWriter, log on a MetricLogger. -/
def Sink.method : Sink → SinkMethod
  | Sink.summaryWriter => SinkMethod.add_scalar
  | Sink.metricLogger => SinkMethod.log

/-- Helper: _log_step_metrics never changes the recorded durations. -/
theorem log_step_metrics_fst (self : TimeWaitForBatchLogger) (rank : ℤ)
    (timer : Durations) (label : String) (step : ℤ) :
    (self._log_step_metrics rank timer label step).1 = timer := by
  unfold TimeWaitForBatchLogger._log_step_metrics
  repeat' split
  all_goals rfl

/-- Helper: _log_step_metrics makes at most one sink call. -/
theorem log_step_metrics_len (self : TimeWaitForBatchLogger) (rank : ℤ)
    (timer : Durations) (label : String) (step : ℤ) :
    (self._log_step_metrics rank timer label step).2.length ≤ 1 := by
  unfold TimeWaitForBatchLogger._log_step_metrics
  repeat' split
  all_goals simp

/-- Helper: on rank 0, on a step divisible by the cadence, with a non-empty
data_wait_time list present, _log_step_metrics makes exactly one sink call
carrying the label, the last sample and the step, through the method matching
the sink shape. -/
theorem log_step_metrics_emits (self : TimeWaitForBatchLogger) (rank : ℤ)
    (timer : Durations) (label : String) (step : ℤ) (l : List ℚ)
    (hrank : rank = 0)
    (hdiv : step % self._log_every_n_steps = 0)
    (hl : timer.get "data_wait_time" = some l)
    (hne : l ≠ []) :
    (self._log_step_metrics rank timer label step).2 =
      [⟨self._logger.method, label, l.getLast hne, step⟩] := by
  subst hrank
  unfold TimeWaitForBatchLogger._log_step_metrics
  rw [if_neg (by simp), if_neg (by simp [hdiv]), hl]
  cases l with
  | nil => exact absurd rfl hne
  | cons x xs =>
    cases hs : self._logger <;> simp [Sink.method, hs]

/-- Helper: on a step not divisible by the cadence, or with the data_wait_time
key absent or its list empty, _log_step_metrics makes no sink call. -/
theorem log_step_metrics_skip (self : TimeWaitForBatchLogger) (rank : ℤ)
    (timer : Durations) (label : String) (step : ℤ)
    (h : step % self._log_every_n_steps ≠ 0 ∨
      timer.get "data_wait_time" = none ∨
      timer.get "data_wait_time" = some []) :
    (self._log_step_metrics rank timer label step).2 = [] := by
  unfold TimeWaitForBatchLogger._log_step_metrics
  split
  · rfl
  split
  · rfl
  rcases h with h | h | h
  · exact absurd h (by simp_all)
  · rw [h]
  · rw [h]

/-- Helper: on a non-zero rank, _log_step_metrics makes no sink call. -/
theorem log_step_metrics_rank (self : TimeWaitForBatchLogger) (rank : ℤ)
    (timer : Durations) (label : String) (step : ℤ) (h : rank ≠ 0) :
    (self._log_step_metrics rank timer label step).2 = [] := by
  unfold TimeWaitForBatchLogger._log_step_metrics
  rw [if_pos h]

/-- Helper: every sink call made by _log_step_metrics goes through the method
matching the sink shape. -/
theorem log_step_metrics_method (self : TimeWaitForBatchLogger) (rank : ℤ)
    (timer : Durations) (label : String) (step : ℤ) :
    (self._log_step_metrics rank timer label step).2.map SinkCall.method =
      List.replicate (self._log_step_metrics rank timer label step).2.length
        self._logger.method := by
  unfold TimeWaitForBatchLogger._log_step_metrics
  repeat' split
  all_goals simp_all [Sink.method]

/-- Helper: the (name, value, step) triples of the sink calls made by
_log_step_metrics do not depend on the sink shape. -/
theorem log_step_metrics_triple_invariant (s₁ s₂ : Sink) (n rank : ℤ)
    (timer : Durations) (label : String) (step : ℤ) :
    (TimeWaitForBatchLogger._log_step_metrics ⟨s₁, n⟩ rank timer label step).2.map
        (fun c => (c.name, c.value, c.step)) =
      (TimeWaitForBatchLogger._log_step_metrics ⟨s₂, n⟩ rank timer label step).2.map
        (fun c => (c.name, c.value, c.step)) := by
  unfold TimeWaitForBatchLogger._log_step_metrics
  by_cases hr : rank ≠ 0
  · rw [if_pos hr, if_pos hr]
  rw [if_neg hr, if_neg hr]
  by_cases hd : step % n ≠ 0
  · rw [if_pos hd, if_pos hd]
  rw [if_neg hd, if_neg hd]
  cases hg : timer.get "data_wait_time" with
  | none => rfl
  | some l =>
    cases l with
    | nil => rfl
    | cons x xs => cases s₁ <;> cases s₂ <;> simp

/-- Helper: each step-end hook is _log_step_metrics applied to the phase state
of its phase, the fixed per-phase label, and the completed-step count of the
unit for that phase; none_throws makes the phase state present a precondition. -/
theorem on_step_end_eq (self : TimeWaitForBatchLogger) (rank : ℤ) (phase : Phase)
    (state : State) (u : TUnit) :
    self.on_step_end rank phase state u =
      (state.phase_state phase).map fun ps =>
        self._log_step_metrics rank ps.iteration_timer phase.twfbLabel
          (u.steps phase) := by
  cases phase <;> rfl

/-- Claim C1: on any step-end hook of TimeWaitForBatchLogger run on the
coordinating rank, when the completed-step count of the unit for the phase is
divisible by log_every_n_steps and the recorded_durations of the phase hold a
non-empty data_wait_time sequence, exactly one sink write occurs, whose value is
the last element of that sequence unchanged, whose name is the fixed per-phase
label matching the hook, and whose step tag is the completed-step count of the
unit for that phase. -/
theorem twfb_step_end_emits (self : TimeWaitForBatchLogger) (rank : ℤ)
    (phase : Phase) (state : State) (u : TUnit) (ps : PhaseState) (l : List ℚ)
    (hps : state.phase_state phase = some ps)
    (hrank : rank = 0)
    (hdiv : u.steps phase % self._log_every_n_steps = 0)
    (hl : ps.iteration_timer.get "data_wait_time" = some l)
    (hne : l ≠ []) :
    self.on_step_end rank phase state u =
      some (ps.iteration_timer,
        [⟨self._logger.method, phase.twfbLabel, l.getLast hne, u.steps phase⟩]) := by
  rw [on_step_end_eq, hps, Option.map_some']
  have h1 := log_step_metrics_fst self rank ps.iteration_timer phase.twfbLabel (u.steps phase)
  have h2 := log_step_metrics_emits self rank ps.iteration_timer phase.twfbLabel
    (u.steps phase) l hrank hdiv hl hne
  exact congrArg some (Prod.ext h1 h2)

/-- Claim C1 witness: a concrete emission at step 4 with cadence 2 and samples
[5, 7] writes the last sample 7 under the train label tagged with step 4. -/
theorem twfb_step_end_emits_witness :
    TimeWaitForBatchLogger.on_step_end ⟨Sink.metricLogger, 2⟩ 0 Phase.train
      ⟨some ⟨[("data_wait_time", [5, 7])]⟩, none, none⟩ ⟨⟨4⟩, ⟨0⟩, ⟨0⟩⟩ =
      some ([("data_wait_time", [5, 7])],
        [⟨SinkMethod.log, "Time Wait For Batch (Train)", 7, 4⟩]) :=
  twfb_step_end_emits ⟨Sink.metricLogger, 2⟩ 0 Phase.train
    ⟨some ⟨[("data_wait_time", [5, 7])]⟩, none, none⟩ ⟨⟨4⟩, ⟨0⟩, ⟨0⟩⟩
    ⟨[("data_wait_time", [5, 7])]⟩ [5, 7] rfl rfl (by decide) (by decide) (by decide)

/-- Claim C5: on any step-end hook of TimeWaitForBatchLogger with the phase
state present, when the completed-step count is not divisible by
log_every_n_steps, or the data_wait_time key is absent, or its sequence is
empty, the sink receives no call and no exception is raised. -/
theorem twfb_step_end_skips (self : TimeWaitForBatchLogger) (rank : ℤ)
    (phase : Phase) (state : State) (u : TUnit) (ps : PhaseState)
    (hps : state.phase_state phase = some ps)
    (h : u.steps phase % self._log_every_n_steps ≠ 0 ∨
      ps.iteration_timer.get "data_wait_time" = none ∨
      ps.iteration_timer.get "data_wait_time" = some []) :
    self.on_step_end rank phase state u = some (ps.iteration_timer, []) := by
  rw [on_step_end_eq, hps, Option.map_some']
  have h1 := log_step_metrics_fst self rank ps.iteration_timer phase.twfbLabel (u.steps phase)
  have h2 := log_step_metrics_skip self rank ps.iteration_timer phase.twfbLabel
    (u.steps phase) h
  exact congrArg some (Prod.ext h1 h2)

/-- Claim C5 witness: at step 3 with cadence 2 the hook returns with no sink
call and no exception. -/
theorem twfb_step_end_skips_witness :
    TimeWaitForBatchLogger.on_step_end ⟨Sink.metricLogger, 2⟩ 0 Phase.eval
      ⟨none, some ⟨[("data_wait_time", [5, 7])]⟩, none⟩ ⟨⟨0⟩, ⟨3⟩, ⟨0⟩⟩ =
      some ([("data_wait_time", [5, 7])], []) :=
  twfb_step_end_skips ⟨Sink.metricLogger, 2⟩ 0 Phase.eval
    ⟨none, some ⟨[("data_wait_time", [5, 7])]⟩, none⟩ ⟨⟨0⟩, ⟨3⟩, ⟨0⟩⟩
    ⟨[("data_wait_time", [5, 7])]⟩ rfl (Or.inl (by decide))

/-- Claim C6: constructing a TimeWaitForBatchLogger raises a ValueError naming
the offending value exactly when log_every_n_steps is below 1; for any
log_every_n_steps at least 1 and any sink, construction succeeds with no sink
calls. -/
theorem twfb_init_validation (s : Sink) (n : ℤ) :
    (n < 1 → TimeWaitForBatchLogger.init s n =
      Except.error ("log_every_n_steps must be at least 1, got " ++ toString n)) ∧
    (1 ≤ n → TimeWaitForBatchLogger.init s n = Except.ok (⟨s, n⟩, [])) := by
  constructor
  · intro h
    unfold TimeWaitForBatchLogger.init
    rw [if_pos h]
  · intro h
    unfold TimeWaitForBatchLogger.init
    rw [if_neg (by omega)]

/-- Claim C6 witness: cadence 0 raises naming the value 0; cadence 3 succeeds
with no sink call. -/
theorem twfb_init_validation_witness :
    TimeWaitForBatchLogger.init Sink.metricLogger 0 =
      Except.error "log_every_n_steps must be at least 1, got 0" ∧
    TimeWaitForBatchLogger.init Sink.summaryWriter 3 =
      Except.ok (⟨Sink.summaryWriter, 3⟩, []) :=
  ⟨(twfb_init_validation Sink.metricLogger 0).1 (by decide),
   (twfb_init_validation Sink.summaryWriter 3).2 (by decide)⟩

/-- Claim C7: on any rank other than the coordinating rank 0, every step-end
hook of TimeWaitForBatchLogger with the phase state present is a no-op: the
durations are untouched and the sink is never written. -/
theorem twfb_rank_zero_only (self : TimeWaitForBatchLogger) (rank : ℤ)
    (phase : Phase) (state : State) (u : TUnit) (ps : PhaseState)
    (hps : state.phase_state phase = some ps)
    (hrank : rank ≠ 0) :
    self.on_step_end rank phase state u = some (ps.iteration_timer, []) := by
  rw [on_step_end_eq, hps, Option.map_some']
  have h1 := log_step_metrics_fst self rank ps.iteration_timer phase.twfbLabel (u.steps phase)
  have h2 := log_step_metrics_rank self rank ps.iteration_timer phase.twfbLabel
    (u.steps phase) hrank
  exact congrArg some (Prod.ext h1 h2)

/-- Claim C7 witness: on rank 1, with a divisible step and a non-empty
data_wait_time sequence, the hook makes no sink call. -/
theorem twfb_rank_zero_only_witness :
    TimeWaitForBatchLogger.on_step_end ⟨Sink.metricLogger, 1⟩ 1 Phase.predict
      ⟨none, none, some ⟨[("data_wait_time", [2])]⟩⟩ ⟨⟨0⟩, ⟨0⟩, ⟨6⟩⟩ =
      some ([("data_wait_time", [2])], []) :=
  twfb_rank_zero_only ⟨Sink.metricLogger, 1⟩ 1 Phase.predict
    ⟨none, none, some ⟨[("data_wait_time", [2])]⟩⟩ ⟨⟨0⟩, ⟨0⟩, ⟨6⟩⟩
    ⟨[("data_wait_time", [2])]⟩ rfl (by decide)

/-- Claim C8: whenever TimeWaitForBatchLogger emits, it dispatches on the sink
shape: every call made uses the method of the configured sink (add_scalar on a
SummaryWriter, log otherwise), at most one call is made, and the
(name, value, step) triple passed does not depend on the sink shape. -/
theorem twfb_sink_dispatch (s : Sink) (n rank : ℤ) (timer : Durations)
    (label : String) (step : ℤ) :
    ((TimeWaitForBatchLogger._log_step_metrics ⟨s, n⟩ rank timer label step).2.map
        SinkCall.method =
      List.replicate
        (TimeWaitForBatchLogger._log_step_metrics ⟨s, n⟩ rank timer label step).2.length
        s.method) ∧
    (TimeWaitForBatchLogger._log_step_metrics ⟨s, n⟩ rank timer label step).2.length ≤ 1 ∧
    ((TimeWaitForBatchLogger._log_step_metrics ⟨s, n⟩ rank timer label step).2.map
        (fun c => (c.name, c.value, c.step)) =
      (TimeWaitForBatchLogger._log_step_metrics ⟨Sink.metricLogger, n⟩ rank timer
          label step).2.map (fun c => (c.name, c.value, c.step))) :=
  ⟨log_step_metrics_method ⟨s, n⟩ rank timer label step,
   log_step_metrics_len ⟨s, n⟩ rank timer label step,
   log_step_metrics_triple_invariant s Sink.metricLogger n rank timer label step⟩

/-- Claim C9: no step-end hook of TimeWaitForBatchLogger mutates the recorded
durations: with the phase state present, the hook returns the durations
unchanged, and its only side effect is at most one sink call. -/
theorem twfb_no_mutation (self : TimeWaitForBatchLogger) (rank : ℤ)
    (phase : Phase) (state : State) (u : TUnit) (ps : PhaseState)
    (hps : state.phase_state phase = some ps) :
    ∃ calls, self.on_step_end rank phase state u = some (ps.iteration_timer, calls) ∧
      calls.length ≤ 1 := by
  rw [on_step_end_eq, hps, Option.map_some']
  refine ⟨(self._log_step_metrics rank ps.iteration_timer phase.twfbLabel
    (u.steps phase)).2, congrArg some ?_, log_step_metrics_len _ _ _ _ _⟩
  exact Prod.ext (log_step_metrics_fst self rank ps.iteration_timer phase.twfbLabel
    (u.steps phase)) rfl

/-- Claim C9 witness: a concrete emitting call leaves the durations unchanged
and makes at most one sink call. -/
theorem twfb_no_mutation_witness :
    ∃ calls,
      TimeWaitForBatchLogger.on_step_end ⟨Sink.summaryWriter, 1⟩ 0 Phase.train
        ⟨some ⟨[("data_wait_time", [9])]⟩, none, none⟩ ⟨⟨1⟩, ⟨0⟩, ⟨0⟩⟩ =
        some ([("data_wait_time", [9])], calls) ∧ calls.length ≤ 1 :=
  twfb_no_mutation ⟨Sink.summaryWriter, 1⟩ 0 Phase.train
    ⟨some ⟨[("data_wait_time", [9])]⟩, none, none⟩ ⟨⟨1⟩, ⟨0⟩, ⟨0⟩⟩
    ⟨[("data_wait_time", [9])]⟩ rfl

/-- Claim C10: presence of the phase state is a precondition of each step-end
hook of TimeWaitForBatchLogger: the hook raises through none_throws exactly
when the phase state of its phase is None, and with the phase state present the
error branch is unreachable. -/
theorem twfb_phase_state_required (self : TimeWaitForBatchLogger) (rank : ℤ)
    (phase : Phase) (state : State) (u : TUnit) :
    self.on_step_end rank phase state u = none ↔
      state.phase_state phase = none := by
  rw [on_step_end_eq]
  cases h : state.phase_state phase <;> simp [h]

/-- Claim C2: whenever the ThroughputLogger per-step evaluation runs on a step
divisible by the cadence, with a non-empty iteration-time sequence, at least two
data-wait-time samples, and a positive total time, it emits one metric per
entry of the throughput specification, named
"{Phase}: {unit_name} per second (step granularity)", with value
count_per_batch / total_time and tagged with the step being logged for, where
total_time is data_wait_time[-2] + iteration_time[-1] at a step-end call site
and data_wait_time[-1] + iteration_time[-1] at a step-start call site. -/
theorem throughput_emits (tl : ThroughputLogger) (phase : Phase) (state : State)
    (step : ℤ) (eh : Bool) (ps : PhaseState) (dwt itt : List ℚ)
    (hps : state.phase_state phase = some ps)
    (hdwt : (ps.iteration_timer.get "data_wait_time").getD [] = dwt)
    (hitt : (ps.iteration_timer.get phase.iterationTimeKey).getD [] = itt)
    (hdiv : step % tl.log_every_n_steps = 0)
    (hitne : itt ≠ [])
    (hdwlen : 2 ≤ dwt.length)
    (hpos : 0 < (if eh then dwt.getD (dwt.length - 2) 0
        else dwt.getD (dwt.length - 1) 0) + itt.getD (itt.length - 1) 0) :
    tl._maybe_log_for_step phase state step eh =
      tl.throughput_per_batch.map fun p =>
        ⟨SinkMethod.log,
         phase.label ++ ": " ++ p.1 ++ " per second (step granularity)",
         (p.2 : ℚ) /
           ((if eh then dwt.getD (dwt.length - 2) 0
             else dwt.getD (dwt.length - 1) 0) + itt.getD (itt.length - 1) 0),
         step⟩ := by
  have htot : ThroughputLogger.totalTime ps phase eh =
      (if eh then dwt.getD (dwt.length - 2) 0 else dwt.getD (dwt.length - 1) 0) +
        itt.getD (itt.length - 1) 0 := by
    unfold ThroughputLogger.totalTime
    rw [hdwt, hitt]
  unfold ThroughputLogger._maybe_log_for_step
  rw [hps, if_neg (by simp [hdiv])]
  simp only [hdwt, hitt, htot]
  rw [if_neg hitne, if_neg (by omega), if_neg (not_le.mpr hpos)]

/-- Claim C2 witness: the concrete evaluation of the test, specification
{Batches 1, Items 32}, samples data_wait_time [1, 4] and iteration time [3],
step 1 at step-end, emits 1/4 and 8 tagged with step 1. -/
theorem throughput_emits_witness :
    ThroughputLogger._maybe_log_for_step ⟨[("Batches", 1), ("Items", 32)], 1⟩
      Phase.train
      ⟨some ⟨[("data_wait_time", [1, 4]), ("train_iteration_time", [3])]⟩, none, none⟩
      1 true =
      [⟨SinkMethod.log, "Train: Batches per second (step granularity)", 1/4, 1⟩,
       ⟨SinkMethod.log, "Train: Items per second (step granularity)", 8, 1⟩] := by
  have h := throughput_emits ⟨[("Batches", 1), ("Items", 32)], 1⟩ Phase.train
    ⟨some ⟨[("data_wait_time", [1, 4]), ("train_iteration_time", [3])]⟩, none, none⟩
    1 true ⟨[("data_wait_time", [1, 4]), ("train_iteration_time", [3])]⟩ [1, 4] [3]
    rfl (by decide) (by decide) (by decide) (by decide) (by decide) (by norm_num)
  refine h.trans ?_
  norm_num [Phase.label]
  exact ⟨rfl, rfl⟩

/-- Claim C3: ThroughputLogger construction fails with an input-validation
error exactly when the specification is empty (message naming the field), some
specification value is below 1 (message naming the offending key and value,
the first such entry being reported), or the cadence is below 1 (message naming
the value); any non-empty specification with all values at least 1 and cadence
at least 1 constructs successfully. -/
theorem throughput_init_validation (tpb : List (String × ℤ)) (n : ℤ) :
    ((∃ tl, ThroughputLogger.init tpb n = Except.ok tl) ↔
      (tpb ≠ [] ∧ (∀ p ∈ tpb, 1 ≤ p.2) ∧ 1 ≤ n)) ∧
    (tpb = [] →
      ThroughputLogger.init tpb n =
        Except.error "throughput_per_batch cannot be empty") ∧
    (∀ k v, tpb.find? (fun p => decide (p.2 < 1)) = some (k, v) →
      ThroughputLogger.init tpb n =
        Except.error ("throughput_per_batch item " ++ k ++
          " must be at least 1, got " ++ toString v)) ∧
    (tpb ≠ [] → (∀ p ∈ tpb, 1 ≤ p.2) → n < 1 →
      ThroughputLogger.init tpb n =
        Except.error ("log_every_n_steps must be at least 1, got " ++
          toString n)) := by
  refine ⟨?_, ?_, ?_, ?_⟩
  · by_cases he : tpb = []
    · subst he
      simp [ThroughputLogger.init]
    · cases hf : tpb.find? (fun p => decide (p.2 < 1)) with
      | some p =>
        have hmem := List.mem_of_find?_eq_some hf
        have hlt : p.2 < 1 := by simpa using List.find?_some hf
        constructor
        · rintro ⟨tl, htl⟩
          unfold ThroughputLogger.init at htl
          rw [if_neg he, hf] at htl
          exact absurd htl (by simp)
        · rintro ⟨-, hall, -⟩
          exact absurd (hall p hmem) (by omega)
      | none =>
        have hall : ∀ p ∈ tpb, 1 ≤ p.2 := by
          intro p hp
          have := List.find?_eq_none.mp hf p hp
          simp only [decide_eq_true_eq] at this
          omega
        constructor
        · rintro ⟨tl, htl⟩
          unfold ThroughputLogger.init at htl
          rw [if_neg he, hf] at htl
          by_cases hn : n < 1
          · rw [if_pos hn] at htl
            exact absurd htl (by simp)
          · exact ⟨he, hall, by omega⟩
        · rintro ⟨-, -, hn⟩
          refine ⟨⟨tpb, n⟩, ?_⟩
          unfold ThroughputLogger.init
          rw [if_neg he, hf, if_neg (by omega)]
  · intro he
    unfold ThroughputLogger.init
    rw [if_pos he]
  · intro k v hf
    have hne : tpb ≠ [] := by
      rintro rfl
      simp at hf
    unfold ThroughputLogger.init
    rw [if_neg hne, hf]
  · intro hne hall hn
    have hf : tpb.find? (fun p => decide (p.2 < 1)) = none := by
      rw [List.find?_eq_none]
      intro p hp
      have := hall p hp
      simp only [decide_eq_true_eq]
      omega
    unfold ThroughputLogger.init
    rw [if_neg hne, hf, if_pos hn]

/-- Claim C3 witness: the three concrete construction failures asserted by the
tests, and a concrete successful construction. -/
theorem throughput_init_validation_witness :
    ThroughputLogger.init [] 1 =
      Except.error "throughput_per_batch cannot be empty" ∧
    ThroughputLogger.init [("Queries", 8), ("Batches", -1)] 1 =
      Except.error "throughput_per_batch item Batches must be at least 1, got -1" ∧
    ThroughputLogger.init [("Batches", 1)] 0 =
      Except.error "log_every_n_steps must be at least 1, got 0" ∧
    (∃ tl, ThroughputLogger.init [("Batches", 1)] 1 = Except.ok tl) :=
  ⟨(throughput_init_validation [] 1).2.1 rfl,
   ((throughput_init_validation [("Queries", 8), ("Batches", -1)] 1).2.2.1
     "Batches" (-1) (by decide)).trans (congrArg Except.error (by decide)),
   ((throughput_init_validation [("Batches", 1)] 0).2.2.2
     (by decide) (by decide) (by decide)).trans (congrArg Except.error (by decide)),
   (throughput_init_validation [("Batches", 1)] 1).1.mpr
     ⟨by decide, by decide, by decide⟩⟩

/-- Claim C4: the ThroughputLogger per-step evaluation makes no sink call (and
raises nothing) when the step is not divisible by the cadence, or the
iteration-time sequence is empty, or the data-wait-time sequence has fewer than
two entries, or the computed total time is not positive. -/
theorem throughput_skips (tl : ThroughputLogger) (phase : Phase) (state : State)
    (step : ℤ) (eh : Bool) :
    (step % tl.log_every_n_steps ≠ 0 →
      tl._maybe_log_for_step phase state step eh = []) ∧
    (∀ ps, state.phase_state phase = some ps →
      ((ps.iteration_timer.get phase.iterationTimeKey).getD [] = [] ∨
        ((ps.iteration_timer.get "data_wait_time").getD []).length < 2 ∨
        ThroughputLogger.totalTime ps phase eh ≤ 0) →
      tl._maybe_log_for_step phase state step eh = []) := by
  constructor
  · intro h
    unfold ThroughputLogger._maybe_log_for_step
    rw [if_pos h]
  · intro ps hps h
    rcases h with h | h | h <;>
      simp [ThroughputLogger._maybe_log_for_step, hps, h]

/-- Claim C4 witness: the concrete total_time of 0 of the test (data_wait_time
[0, 4], iteration time [0]) produces no sink call. -/
theorem throughput_skips_witness :
    ThroughputLogger._maybe_log_for_step ⟨[("Batches", 1)], 1⟩ Phase.train
      ⟨some ⟨[("data_wait_time", [0, 4]), ("train_iteration_time", [0])]⟩, none, none⟩
      1 true = [] :=
  (throughput_skips ⟨[("Batches", 1)], 1⟩ Phase.train
      ⟨some ⟨[("data_wait_time", [0, 4]), ("train_iteration_time", [0])]⟩, none, none⟩
      1 true).2
    ⟨[("data_wait_time", [0, 4]), ("train_iteration_time", [0])]⟩ rfl
    (Or.inr (Or.inr (by
      have hb1 : ("data_wait_time" == "train_iteration_time") = false := rfl
      have hb2 : ("data_wait_time" == "data_wait_time") = true := rfl
      norm_num [ThroughputLogger.totalTime, Durations.get, Phase.iterationTimeKey,
        List.find?, hb1, hb2])))

end TNT
